import Mathlib

/-!
Verification of the parallel-sentence dataset pipeline of the
diacritics_restoration repository. The orchestration code in
`src/train.py` (vocabulary loading, checkpoint resolution, attaching
dev/test splits) is embedded faithfully; the dataset module
(`read_dataset_files`, `ParalelSentencesDataset`, the vocabulary
builder, the sequence encoder and the batch loader) is not part of the
visible sources and is modelled from the specification.
-/

namespace DiacriticsRestoration

/-- A character-to-index vocabulary, as an ordered association list:
Python dicts preserve insertion order, and insertion order defines the
index assignment. -/
abbrev CharToIndexType := List (Char × Nat)

/-- The errors the pipeline can raise. `keyError`, `valueError`,
`fileNotFoundError` and `unpicklingError` model the corresponding
Python exceptions raised by `train.py`; `vocabularyLoadError` and
`mismatchedLengthError` model the errors named by the spec for the
vocabulary loader and the dataset file reader. -/
inductive TrainError where
  | valueError
  | keyError
  | fileNotFoundError
  | unpicklingError
  | vocabularyLoadError
  | mismatchedLengthError
deriving DecidableEq, Repr

/-- Modelled from the spec: the reserved padding symbol, assigned the
fixed well-known index 0 by the vocabulary builder. -/
def padSymbol : Char := '\u0000'

/-- Modelled from the spec: the reserved unknown/out-of-vocabulary
symbol, assigned the fixed well-known index 1 by the vocabulary
builder. -/
def unkSymbol : Char := '\u0001'

/-- The fixed pad index (index 0 = pad). -/
def padIndex : Nat := 0

/-- The fixed unknown index (index 1 = unknown). -/
def unkIndex : Nat := 1

/-- Look a character up in a vocabulary: the index of its first entry,
if any. -/
def lookupChar (vocab : CharToIndexType) (c : Char) : Option Nat :=
  vocab.lookup c

/-! ## Sequence Encoder (modelled from the spec, §4.3) -/

/-- Modelled from the spec: the Sequence Encoder. The `dataset` module
holding it is not among the visible sources. Maps each character to its
vocabulary index (absent characters to the unknown index), truncates to
the first `max_chars_in_sentence` characters, and right-pads shorter
sentences with the pad index up to the limit. -/
def encode_sentence (vocab : CharToIndexType) (max_chars_in_sentence : Nat)
    (sentence : List Char) : List Nat :=
  let ids := (sentence.map (fun c => (lookupChar vocab c).getD unkIndex)).take
    max_chars_in_sentence
  ids ++ List.replicate (max_chars_in_sentence - ids.length) padIndex

/-! ## Batch Loader (modelled from the spec, §4.5) -/

/-- Modelled from the spec: one unshuffled pass of the Batch Loader
over a split, producing consecutive batches of `batch_size` samples,
the final batch possibly smaller (partial, never padded with synthetic
samples). The `dataset` module holding the loader is not among the
visible sources. -/
def batchesOf (batch_size : Nat) (split : List α) : List (List α) :=
  if h : split.isEmpty ∨ batch_size = 0 then []
  else split.take batch_size :: batchesOf batch_size (split.drop batch_size)
termination_by split.length
decreasing_by
  push_neg at h
  have h1 : split ≠ [] := by
    intro he
    subst he
    exact h.1 rfl
  have h2 : batch_size ≠ 0 := h.2
  have : 0 < split.length := List.length_pos.mpr h1
  simp only [List.length_drop]
  omega

/-- An encoded (input, target) sample pair, as the Batch Loader serves
them. -/
abbrev EncodedPair := List Nat × List Nat

/-- One pass of the Batch Loader over a split of encoded (input,
target) pairs. -/
def batchLoaderPass (batch_size : Nat) (split : List EncodedPair) :
    List (List EncodedPair) :=
  batchesOf batch_size split

/-! ## Vocabulary Builder (modelled from the spec, §4.2) -/

/-- Number of occurrences of a character across all sentences of a
corpus. -/
def charFrequency (corpus : List (List Char)) (c : Char) : Nat :=
  corpus.flatten.count c

/-- The distinct characters of a list, in first-seen order. -/
def firstSeen : List Char → List Char
  | [] => []
  | c :: rest => c :: (firstSeen rest).filter (fun d => d ≠ c)

/-- Assign consecutive indices, starting at `i`, to a list of
characters in order. -/
def assignIndices : List Char → Nat → CharToIndexType
  | [], _ => []
  | c :: rest, i => (c, i) :: assignIndices rest (i + 1)

/-- The reserved symbols, occupying the first indices of every built
vocabulary. -/
def reservedSymbols : List Char := [padSymbol, unkSymbol]

/-- The descending-frequency order on characters used by the builder:
ties are broken by the stability of insertion sort, i.e. first-seen
order. -/
def freqGE (corpus : List (List Char)) (a b : Char) : Prop :=
  charFrequency corpus b ≤ charFrequency corpus a

instance (corpus : List (List Char)) : DecidableRel (freqGE corpus) :=
  fun a b => inferInstanceAs (Decidable (_ ≤ _))

/-- Modelled from the spec: the Vocabulary Builder (build-from-corpus
entry point); the `dataset` module holding it is not among the visible
sources. Computes per-character frequency across all sentences and
returns a vocabulary containing the reserved pad/unknown symbols
followed by either all distinct characters (no cap) or the top-N most
frequent (capped), indices assigned in order of construction: reserved
symbols first, then by descending frequency with first-seen
tie-break. -/
def build_vocabulary (corpus : List (List Char))
    (take_num_top_chars : Option Nat) : CharToIndexType :=
  let chars := firstSeen corpus.flatten
  let sorted := chars.insertionSort (freqGE corpus)
  let chosen := match take_num_top_chars with
    | none => sorted
    | some n => sorted.take n
  assignIndices (reservedSymbols ++ chosen) 0

/-! ## Persisted vocabulary form (pickle), modelled from the spec §6 -/

/-- A model of the pickled value space used for persisted
vocabularies: naturals, characters, pairs and insertion-ordered
dictionaries. -/
inductive PValue where
  | nat : Nat → PValue
  | char : Char → PValue
  | pair : PValue → PValue → PValue
  | dict : List (PValue × PValue) → PValue

/-- Serialize one vocabulary as a dictionary of character keys and
index values. -/
def dumpVocab (v : CharToIndexType) : PValue :=
  .dict (v.map (fun ci => (.char ci.1, .nat ci.2)))

/-- Serialize the pair (input vocabulary, target vocabulary), as
`main` pickles it once after `build()`. -/
def dumpVocabPair (vin vtg : CharToIndexType) : PValue :=
  .pair (dumpVocab vin) (dumpVocab vtg)

/-- Decode one dictionary entry back into a (character, index) pair;
fails on any other shape. -/
def decodeEntry : PValue × PValue → Option (Char × Nat)
  | (.char c, .nat i) => some (c, i)
  | _ => none

/-- Decode a list of dictionary entries, failing if any entry is not a
(character, index) pair. -/
def decodeEntries : List (PValue × PValue) → Option (List (Char × Nat))
  | [] => some []
  | e :: rest =>
    match decodeEntry e, decodeEntries rest with
    | some ci, some l => some (ci :: l)
    | _, _ => none

/-- Decode a persisted vocabulary: it must be a dictionary whose
entries all map a character to an index, i.e. a character→index
mapping; anything else is a mismatched structure. -/
def decodeVocab : PValue → Option CharToIndexType
  | .dict entries => decodeEntries entries
  | _ => none

/-- Decode a persisted (input vocabulary, target vocabulary) pair. -/
def decodeVocabPair : PValue → Option (CharToIndexType × CharToIndexType)
  | .pair a b =>
    match decodeVocab a, decodeVocab b with
    | some va, some vb => some (va, vb)
    | _, _ => none
  | _ => none

/-! ## Filesystems -/

/-- The pickle files visible to the program: path → persisted value. -/
abbrev PickleFs := List (String × PValue)

/-- The text files visible to the program: path → list of lines. -/
abbrev TextFs := List (String × List String)

/-- `os.path.exists` over the pickle filesystem. -/
def osPathExists (fs : PickleFs) (p : String) : Bool :=
  (fs.lookup p).isSome

/-! ## Vocabulary loading (`src/train.py`, `load_vocabularies`) -/

/-- Modelled from the spec: `utils.load_vocabulary` (the `common.utils`
module is not among the visible sources). Deserializes a previously
persisted vocabulary; fails with `VocabularyLoadError` if the persisted
form is missing, corrupt, or of mismatched structure (not a
character→index mapping). -/
def load_vocabulary (fs : PickleFs) (path : String) :
    Except TrainError CharToIndexType :=
  match fs.lookup path with
  | none => .error .vocabularyLoadError
  | some v =>
    match decodeVocab v with
    | some voc => .ok voc
    | none => .error .vocabularyLoadError

/-- The per-path loading step of `load_vocabularies` (`src/train.py`
lines 70–76): the vocabulary variable starts as `None` and a supplied
path is consulted only when `os.path.exists` holds for it, exactly as
in the source; an error raised by `utils.load_vocabulary`
propagates. -/
def loadIfExists (fs : PickleFs) (path : Option String) :
    Except TrainError (Option CharToIndexType) :=
  match path with
  | some p =>
    if osPathExists fs p then
      match load_vocabulary fs p with
      | .ok v => .ok (some v)
      | .error e => .error e
    else .ok none
  | none => .ok none

/-- The checkpoint-restoration step of `load_vocabularies`
(`src/train.py` lines 78–95): wildcard expansion (`glob`) is
abstracted as the function `globFn`; zero matches and multiple matches
raise `ValueError`; with exactly one match the pair is unpickled from
that directory's `vocab.pkl` (`decodeVocabPair`: tuple unpacking of
the unpickled value fails on a non-pair). -/
def restoreFromCheckpoint (fs : PickleFs) (globFn : String → List String)
    (cp : String) :
    Except TrainError (Option CharToIndexType × Option CharToIndexType) :=
  match globFn cp with
  | [] => .error .valueError
  | [q] =>
    match fs.lookup (q ++ "/vocab.pkl") with
    | none => .error .fileNotFoundError
    | some v =>
      match decodeVocabPair v with
      | some (vi, vt) => .ok (some vi, some vt)
      | none => .error .unpicklingError
  | _ :: _ :: _ => .error .valueError

/-- Embedding of `load_vocabularies` from `src/train.py` (lines
65–97): load the input and target vocabularies from their supplied
paths when those exist, then, if a checkpoint restore pattern is
given, resolve it and load both vocabularies from the checkpoint's
`vocab.pkl` instead. -/
def load_vocabularies (fs : PickleFs) (globFn : String → List String)
    (input_vocab_path target_vocab_path checkpoint_path : Option String) :
    Except TrainError (Option CharToIndexType × Option CharToIndexType) :=
  match loadIfExists fs input_vocab_path with
  | .error e => .error e
  | .ok input_char_vocab =>
    match loadIfExists fs target_vocab_path with
    | .error e => .error e
    | .ok target_char_vocab =>
      match checkpoint_path with
      | none => .ok (input_char_vocab, target_char_vocab)
      | some cp => restoreFromCheckpoint fs globFn cp

/-! ## Dataset File Reader (modelled from the spec, §4.1) -/

/-- Modelled from the spec: `read_dataset_files` (imported by
`src/train.py` from the `dataset` module, which is not among the
visible sources). Reads the two aligned files line-by-line, fails with
`MismatchedLengthError` if they contain different numbers of lines,
and, when a sentence limit is given, returns only the first N lines of
each file. -/
def read_dataset_files (fs : TextFs) (inputs_filepath targets_filepath : String)
    (sentence_limit : Option Nat) :
    Except TrainError (List String × List String) :=
  match fs.lookup inputs_filepath, fs.lookup targets_filepath with
  | some ins, some tgts =>
    if ins.length ≠ tgts.length then .error .mismatchedLengthError
    else
      match sentence_limit with
      | none => .ok (ins, tgts)
      | some n => .ok (ins.take n, tgts.take n)
  | _, _ => .error .fileNotFoundError

/-! ## Attaching dev and test splits (`src/train.py`,
`add_dev_and_test_sets`) -/

/-- The validation/test splits attached to a `ParalelSentencesDataset`
before `build()`; each split is a pair of parallel sentence
sequences. Only the parts `add_dev_and_test_sets` touches are
modelled; the dataset class itself is not among the visible
sources. -/
structure DatasetSplits where
  validation : Option (List String × List String)
  test : Option (List String × List String)
deriving Repr

/-- `dataset.add_validation_set(inputs, targets)`. -/
def add_validation_set (d : DatasetSplits) (ins tgts : List String) :
    DatasetSplits :=
  { d with validation := some (ins, tgts) }

/-- `dataset.add_test_set(inputs, targets)`. -/
def add_test_set (d : DatasetSplits) (ins tgts : List String) :
    DatasetSplits :=
  { d with test := some (ins, tgts) }

/-- The dataset descriptor: an insertion-ordered dictionary of file
path entries (`train_inputs`, `dev_inputs`, ...). -/
abbrev DsFpaths := List (String × String)

/-- Python `d[k]`: the value at a key, raising `KeyError` when the key
is absent. -/
def getItem (ds : DsFpaths) (k : String) : Except TrainError String :=
  match ds.lookup k with
  | some v => .ok v
  | none => .error .keyError

/-- The validation branch of `add_dev_and_test_sets` (`src/train.py`
lines 158–165): guarded by the presence of the `dev_inputs` key; the
file paths are read by unguarded dictionary lookups at `dev_inputs`
and `dev_targets` (a missing key raises `KeyError`). -/
def attachValidationStep (fs : TextFs) (dataset : DatasetSplits)
    (ds_fpaths : DsFpaths) : Except TrainError DatasetSplits :=
  if (ds_fpaths.lookup "dev_inputs").isSome then
    match getItem ds_fpaths "dev_inputs" with
    | .error e => .error e
    | .ok inputs_filepath =>
      match getItem ds_fpaths "dev_targets" with
      | .error e => .error e
      | .ok targets_filepath =>
        match read_dataset_files fs inputs_filepath targets_filepath none with
        | .error e => .error e
        | .ok (dev_input_sentences, dev_target_sentences) =>
          .ok (add_validation_set dataset dev_input_sentences
            dev_target_sentences)
  else .ok dataset

/-- The test branch of `add_dev_and_test_sets` (`src/train.py` lines
167–174), faithful to the source: guarded by the presence of the
`test_inputs` key, but the file paths are read by unguarded dictionary
lookups at the keys `dev_inputs` and `dev_targets`. -/
def attachTestStep (fs : TextFs) (dataset : DatasetSplits)
    (ds_fpaths : DsFpaths) : Except TrainError DatasetSplits :=
  if (ds_fpaths.lookup "test_inputs").isSome then
    match getItem ds_fpaths "dev_inputs" with
    | .error e => .error e
    | .ok inputs_filepath =>
      match getItem ds_fpaths "dev_targets" with
      | .error e => .error e
      | .ok targets_filepath =>
        match read_dataset_files fs inputs_filepath targets_filepath none with
        | .error e => .error e
        | .ok (test_input_sentences, test_target_sentences) =>
          .ok (add_test_set dataset test_input_sentences
            test_target_sentences)
  else .ok dataset

/-- Embedding of `add_dev_and_test_sets` from `src/train.py` (lines
154–174): the validation branch runs first; an exception it raises
propagates, otherwise the test branch runs on the updated dataset. -/
def add_dev_and_test_sets (fs : TextFs) (dataset : DatasetSplits)
    (ds_fpaths : DsFpaths) : Except TrainError DatasetSplits :=
  match attachValidationStep fs dataset ds_fpaths with
  | .error e => .error e
  | .ok d1 => attachTestStep fs d1 ds_fpaths

/-! ## Lemmas about the Batch Loader -/

theorem batchesOf_nil (B : Nat) : batchesOf B ([] : List α) = [] := by
  rw [batchesOf]
  simp

theorem batchesOf_cons (B : Nat) (hB : B ≠ 0) (l : List α) (hl : l ≠ []) :
    batchesOf B l = l.take B :: batchesOf B (l.drop B) := by
  rw [batchesOf]
  rw [dif_neg]
  simp [hl, hB]

theorem batchesOf_eq_nil_iff (B : Nat) (hB : B ≠ 0) (l : List α) :
    batchesOf B l = [] ↔ l = [] := by
  constructor
  · intro h
    by_contra hl
    rw [batchesOf_cons B hB l hl] at h
    exact List.cons_ne_nil _ _ h
  · intro h
    subst h
    exact batchesOf_nil B

theorem batchesOf_flatten (B : Nat) (hB : 0 < B) (l : List α) :
    (batchesOf B l).flatten = l := by
  generalize hn : l.length = n
  induction n using Nat.strong_induction_on generalizing l with
  | _ n ih =>
    rcases eq_or_ne l [] with rfl | hl
    · simp [batchesOf_nil]
    · rw [batchesOf_cons B (Nat.pos_iff_ne_zero.mp hB) l hl]
      rw [List.flatten_cons]
      have hlen : (l.drop B).length < n := by
        subst hn
        rw [List.length_drop]
        have : 0 < l.length := List.length_pos.mpr hl
        omega
      rw [ih (l.drop B).length hlen (l.drop B) rfl]
      exact List.take_append_drop B l

theorem batchesOf_length (B : Nat) (hB : 0 < B) (l : List α) :
    (batchesOf B l).length = (l.length + B - 1) / B := by
  generalize hn : l.length = n
  induction n using Nat.strong_induction_on generalizing l with
  | _ n ih =>
    subst hn
    rcases eq_or_ne l [] with rfl | hl
    · rw [batchesOf_nil]
      simp only [List.length_nil]
      exact (Nat.div_eq_of_lt (by omega)).symm
    · rw [batchesOf_cons B (Nat.pos_iff_ne_zero.mp hB) l hl]
      have hpos : 0 < l.length := List.length_pos.mpr hl
      have hlen : (l.drop B).length < l.length := by
        rw [List.length_drop]
        omega
      rw [List.length_cons, ih (l.drop B).length hlen (l.drop B) rfl]
      rw [List.length_drop]
      rcases le_or_lt l.length B with hle | hlt
      · have h1 : l.length - B = 0 := by omega
        rw [h1]
        have h2 : (0 + B - 1) / B = 0 := Nat.div_eq_of_lt (by omega)
        have h3 : (l.length + B - 1) / B = 1 :=
          Nat.div_eq_of_lt_le (by omega) (by omega)
        omega
      · have h1 : l.length - B + B - 1 = (l.length - 1 - B) + B := by omega
        have h2 : l.length + B - 1 = (l.length - 1) + B := by omega
        rw [h1, h2, Nat.add_div_right _ hB, Nat.add_div_right _ hB]
        have h3 : l.length - 1 - B + B = l.length - 1 := by omega
        conv_rhs => rw [← h3, Nat.add_div_right _ hB]

theorem batchesOf_dropLast (B : Nat) (hB : 0 < B) (l : List α) :
    ∀ b ∈ (batchesOf B l).dropLast, b.length = B := by
  generalize hn : l.length = n
  induction n using Nat.strong_induction_on generalizing l with
  | _ n ih =>
    rcases eq_or_ne l [] with rfl | hl
    · simp [batchesOf_nil]
    · rw [batchesOf_cons B (Nat.pos_iff_ne_zero.mp hB) l hl]
      have hpos : 0 < l.length := List.length_pos.mpr hl
      rcases eq_or_ne (l.drop B) [] with hdrop | hdrop
      · rw [hdrop, batchesOf_nil]
        simp
      · have hrest : batchesOf B (l.drop B) ≠ [] := by
          rw [Ne, batchesOf_eq_nil_iff B (Nat.pos_iff_ne_zero.mp hB)]
          exact hdrop
        rw [List.dropLast_cons_of_ne_nil hrest]
        intro b hb
        rcases List.mem_cons.mp hb with rfl | hb
        · have hgt : B < l.length := by
            by_contra hle
            push_neg at hle
            exact hdrop (List.drop_eq_nil_of_le hle)
          rw [List.length_take]
          omega
        · have hlen : (l.drop B).length < n := by
            subst hn
            rw [List.length_drop]
            omega
          exact ih (l.drop B).length hlen (l.drop B) rfl b hb

theorem batchesOf_getLast (B : Nat) (hB : 0 < B) (l : List α)
    (hmod : l.length % B ≠ 0) :
    ∃ b, (batchesOf B l).getLast? = some b ∧ b.length = l.length % B := by
  generalize hn : l.length = n
  induction n using Nat.strong_induction_on generalizing l with
  | _ n ih =>
    subst hn
    have hl : l ≠ [] := by
      intro h
      subst h
      simp at hmod
    rw [batchesOf_cons B (Nat.pos_iff_ne_zero.mp hB) l hl]
    have hpos : 0 < l.length := List.length_pos.mpr hl
    rcases eq_or_ne (l.drop B) [] with hdrop | hdrop
    · have hle : l.length ≤ B := by
        by_contra hgt
        push_neg at hgt
        have hne : l.drop B ≠ [] := by
          rw [Ne, List.drop_eq_nil_iff]
          omega
        exact hne hdrop
      have hlt : l.length < B := by
        rcases Nat.lt_or_ge l.length B with h | h
        · exact h
        · have heq : l.length = B := le_antisymm hle h
          rw [heq, Nat.mod_self] at hmod
          exact absurd rfl hmod
      refine ⟨l.take B, ?_, ?_⟩
      · rw [hdrop, batchesOf_nil]
        rfl
      · rw [List.length_take, Nat.mod_eq_of_lt hlt]
        omega
    · have hrest : batchesOf B (l.drop B) ≠ [] := by
        rw [Ne, batchesOf_eq_nil_iff B (Nat.pos_iff_ne_zero.mp hB)]
        exact hdrop
      have hge : B ≤ l.length := by
        by_contra hgt
        push_neg at hgt
        exact hdrop (List.drop_eq_nil_of_le (le_of_lt hgt))
      have hmod2 : (l.drop B).length % B ≠ 0 := by
        rw [List.length_drop, ← Nat.mod_eq_sub_mod hge]
        exact hmod
      have hlen : (l.drop B).length < l.length := by
        rw [List.length_drop]
        omega
      obtain ⟨b, hb1, hb2⟩ := ih (l.drop B).length hlen (l.drop B) hmod2 rfl
      refine ⟨b, ?_, ?_⟩
      · obtain ⟨r, rs, hrs⟩ := List.exists_cons_of_ne_nil hrest
        rw [hrs, List.getLast?_cons_cons, ← hrs]
        exact hb1
      · rw [hb2, List.length_drop, ← Nat.mod_eq_sub_mod hge]

/-! ## Lemmas about the Vocabulary Builder -/

instance (corpus : List (List Char)) : IsTotal Char (freqGE corpus) :=
  ⟨fun a b => le_total _ _⟩

instance (corpus : List (List Char)) : IsTrans Char (freqGE corpus) :=
  ⟨fun _ _ _ h1 h2 => le_trans h2 h1⟩

theorem assignIndices_map_fst (l : List Char) (i : Nat) :
    (assignIndices l i).map Prod.fst = l := by
  induction l generalizing i with
  | nil => rfl
  | cons c rest ih =>
    rw [assignIndices, List.map_cons, ih]

theorem assignIndices_map_snd (l : List Char) (i : Nat) :
    (assignIndices l i).map Prod.snd = List.range' i l.length := by
  induction l generalizing i with
  | nil => rfl
  | cons c rest ih =>
    rw [assignIndices, List.map_cons, ih, List.length_cons, List.range'_succ]

theorem assignIndices_length (l : List Char) (i : Nat) :
    (assignIndices l i).length = l.length := by
  induction l generalizing i with
  | nil => rfl
  | cons c rest ih =>
    rw [assignIndices, List.length_cons, ih, List.length_cons]

/-! ## Lemmas about the persisted vocabulary form -/

theorem decodeEntries_dump (v : CharToIndexType) :
    decodeEntries (v.map (fun ci => (.char ci.1, .nat ci.2))) = some v := by
  induction v with
  | nil => rfl
  | cons ci rest ih =>
    rw [List.map_cons, decodeEntries, ih]
    rfl

theorem decodeVocab_dumpVocab (v : CharToIndexType) :
    decodeVocab (dumpVocab v) = some v := by
  rw [dumpVocab, decodeVocab, decodeEntries_dump]

theorem decodeVocabPair_dumpVocabPair (vin vtg : CharToIndexType) :
    decodeVocabPair (dumpVocabPair vin vtg) = some (vin, vtg) := by
  rw [dumpVocabPair, decodeVocabPair, decodeVocab_dumpVocab,
    decodeVocab_dumpVocab]

/-! ## Claim theorems -/

/-- C2 counterexample: the claim is false as stated. At the concrete
input of a supplied vocabulary path `"in.pkl"` over an empty
filesystem (so the persisted form is missing), `load_vocabularies`
succeeds and silently returns an absent (`none`) input vocabulary
instead of failing with `VocabularyLoadError`: the source guards the
load with `os.path.exists`, so a missing file is skipped, not
reported. -/
theorem claim_C2_counterexample :
    load_vocabularies [] (fun _ => []) (some "in.pkl") none none =
      .ok (none, none) := rfl

/-- C2 (amended): for a supplied vocabulary path whose file exists but
whose persisted form is corrupt or not a character→index mapping,
loading fails with `VocabularyLoadError`; but for a supplied path
whose file is missing, `load_vocabularies` silently returns an absent
(`None`) vocabulary for that path instead of failing. -/
theorem claim_C2_vocabulary_load_errors (fs : PickleFs) (p : String)
    (globFn : String → List String) :
    (fs.lookup p = none →
      load_vocabularies fs globFn (some p) none none = .ok (none, none)) ∧
    (∀ v, fs.lookup p = some v → decodeVocab v = none →
      load_vocabularies fs globFn (some p) none none =
        .error .vocabularyLoadError) ∧
    (∀ v voc, fs.lookup p = some v → decodeVocab v = some voc →
      load_vocabularies fs globFn (some p) none none =
        .ok (some voc, none)) := by
  refine ⟨?_, ?_, ?_⟩
  · intro h
    have hex : osPathExists fs p = false := by
      rw [osPathExists, h]
      rfl
    simp only [load_vocabularies, loadIfExists, hex, Bool.false_eq_true,
      if_false]
  · intro v hv hdec
    have hex : osPathExists fs p = true := by
      rw [osPathExists, hv]
      rfl
    simp only [load_vocabularies, loadIfExists, load_vocabulary, hex, if_true,
      hv, hdec]
  · intro v voc hv hdec
    have hex : osPathExists fs p = true := by
      rw [osPathExists, hv]
      rfl
    simp only [load_vocabularies, loadIfExists, load_vocabulary, hex, if_true,
      hv, hdec]

/-- Witness for the amended C2: a filesystem whose `"v.pkl"` holds a
bare natural (not a character→index mapping) makes loading fail with
`VocabularyLoadError`. -/
theorem claim_C2_witness :
    load_vocabularies [("v.pkl", PValue.nat 0)] (fun _ => [])
      (some "v.pkl") none none = .error .vocabularyLoadError :=
  (claim_C2_vocabulary_load_errors [("v.pkl", PValue.nat 0)] "v.pkl"
    (fun _ => [])).2.1 (PValue.nat 0) rfl rfl

/-- C3: if the checkpoint restore pattern's wildcard expansion matches
zero paths or more than one path, `load_vocabularies` raises
`ValueError`; if it matches exactly one path, the (input, target)
vocabulary pair is loaded from that path's `vocab.pkl`. -/
theorem claim_C3_checkpoint_resolution (fs : PickleFs)
    (globFn : String → List String) (cp : String) :
    (globFn cp = [] →
      load_vocabularies fs globFn none none (some cp) =
        .error .valueError) ∧
    (∀ q q' qs, globFn cp = q :: q' :: qs →
      load_vocabularies fs globFn none none (some cp) =
        .error .valueError) ∧
    (∀ q vin vtg, globFn cp = [q] →
      fs.lookup (q ++ "/vocab.pkl") = some (dumpVocabPair vin vtg) →
      load_vocabularies fs globFn none none (some cp) =
        .ok (some vin, some vtg)) := by
  refine ⟨?_, ?_, ?_⟩
  · intro h
    simp only [load_vocabularies, loadIfExists, restoreFromCheckpoint, h]
  · intro q q' qs h
    simp only [load_vocabularies, loadIfExists, restoreFromCheckpoint, h]
  · intro q vin vtg hg hfs
    simp only [load_vocabularies, loadIfExists, restoreFromCheckpoint, hg, hfs,
      decodeVocabPair_dumpVocabPair]

/-- Witness for C3: a pattern expanding to two matches raises
`ValueError`. -/
theorem claim_C3_witness :
    load_vocabularies [] (fun _ => ["ck1", "ck2"]) none none
      (some "ck*") = .error .valueError :=
  (claim_C3_checkpoint_resolution [] (fun _ => ["ck1", "ck2"]) "ck*").2.1
    "ck1" "ck2" [] rfl

/-- C4: round-trip — persisting a pair of built vocabularies (the
serialized pair (input vocabulary, target vocabulary), as `main`
writes it to the checkpoint's `vocab.pkl`) and then loading the
persisted form through `load_vocabularies` reproduces
character→index mappings identical to the originals, the input and
target vocabularies recovered in the order they were written. -/
theorem claim_C4_vocabulary_roundtrip (vin vtg : CharToIndexType)
    (dir pattern : String) (fs : PickleFs) (globFn : String → List String)
    (hglob : globFn pattern = [dir])
    (hfs : fs.lookup (dir ++ "/vocab.pkl") = some (dumpVocabPair vin vtg)) :
    load_vocabularies fs globFn none none (some pattern) =
      .ok (some vin, some vtg) ∧
    decodeVocabPair (dumpVocabPair vin vtg) = some (vin, vtg) := by
  constructor
  · simp only [load_vocabularies, loadIfExists, restoreFromCheckpoint, hglob,
      hfs, decodeVocabPair_dumpVocabPair]
  · exact decodeVocabPair_dumpVocabPair vin vtg

/-- Witness for C4 at concrete vocabularies: the pair
([('a', 2)], [('b', 3)]) written to `"ck/vocab.pkl"` is recovered
unchanged. -/
theorem claim_C4_witness :
    (fun _ : String => ["ck"]) "ck*" = ["ck"] ∧
    ([("ck/vocab.pkl", dumpVocabPair [('a', 2)] [('b', 3)])] :
        PickleFs).lookup ("ck" ++ "/vocab.pkl") =
      some (dumpVocabPair [('a', 2)] [('b', 3)]) ∧
    (load_vocabularies [("ck/vocab.pkl", dumpVocabPair [('a', 2)] [('b', 3)])]
        (fun _ => ["ck"]) none none (some "ck*") =
      .ok (some [('a', 2)], some [('b', 3)]) ∧
    decodeVocabPair (dumpVocabPair [('a', 2)] [('b', 3)]) =
      some ([('a', 2)], [('b', 3)])) :=
  ⟨rfl, rfl,
    claim_C4_vocabulary_roundtrip [('a', 2)] [('b', 3)] "ck" "ck*"
      [("ck/vocab.pkl", dumpVocabPair [('a', 2)] [('b', 3)])]
      (fun _ => ["ck"]) rfl rfl⟩

/-- C5: for every split of size S and every batch size B > 0, one
unshuffled pass of the Batch Loader yields exactly ⌈S/B⌉ = (S+B-1)/B
batches, every batch except possibly the last has exactly B (input,
target) pairs, the last has S mod B pairs when S is not a multiple of
B, and concatenating all batches in order reproduces the split's
encoded samples exactly, with no synthetic padding samples added. -/
theorem claim_C5_batch_loader_completeness (split : List EncodedPair)
    (B : Nat) (hB : 0 < B) :
    (batchLoaderPass B split).length = (split.length + B - 1) / B ∧
    (∀ b ∈ (batchLoaderPass B split).dropLast, b.length = B) ∧
    (split.length % B ≠ 0 →
      ∃ b, (batchLoaderPass B split).getLast? = some b ∧
        b.length = split.length % B) ∧
    (batchLoaderPass B split).flatten = split :=
  ⟨batchesOf_length B hB split, batchesOf_dropLast B hB split,
    batchesOf_getLast B hB split, batchesOf_flatten B hB split⟩

/-- A concrete 5-sample split used to witness C5, matching the spec
scenario batch_size=2 on a 5-sample split. -/
def sampleSplit5 : List EncodedPair :=
  [([0], [0]), ([1], [1]), ([2], [2]), ([3], [3]), ([4], [4])]

/-- Witness for C5 at the spec's own scenario: batch_size=2 on a
5-sample split. -/
theorem claim_C5_witness :
    (0 : Nat) < 2 ∧
    ((batchLoaderPass 2 sampleSplit5).length = (sampleSplit5.length + 2 - 1) / 2 ∧
    (∀ b ∈ (batchLoaderPass 2 sampleSplit5).dropLast, b.length = 2) ∧
    (sampleSplit5.length % 2 ≠ 0 →
      ∃ b, (batchLoaderPass 2 sampleSplit5).getLast? = some b ∧
        b.length = sampleSplit5.length % 2) ∧
    (batchLoaderPass 2 sampleSplit5).flatten = sampleSplit5) :=
  ⟨by decide, claim_C5_batch_loader_completeness sampleSplit5 2 (by decide)⟩

/-- C6: for every sentence, vocabulary and limit L > 0, the Sequence
Encoder's output has length exactly L; sentences longer than L are
truncated to their first L characters (the output is the index image
of the first L characters), and shorter sentences are right-padded
with the pad index up to L. Determinism for identical (sentence,
vocabulary, limit) input holds by construction: `encode_sentence` is a
pure function of exactly these three arguments. -/
theorem claim_C6_encoder_length_invariant (vocab : CharToIndexType)
    (L : Nat) (hL : 0 < L) (sentence : List Char) :
    (encode_sentence vocab L sentence).length = L ∧
    (L ≤ sentence.length →
      encode_sentence vocab L sentence =
        (sentence.take L).map (fun c => (lookupChar vocab c).getD unkIndex)) ∧
    (sentence.length ≤ L →
      encode_sentence vocab L sentence =
        sentence.map (fun c => (lookupChar vocab c).getD unkIndex) ++
          List.replicate (L - sentence.length) padIndex) := by
  refine ⟨?_, ?_, ?_⟩
  · rw [encode_sentence]
    simp only [List.length_append, List.length_take, List.length_map,
      List.length_replicate]
    omega
  · intro hlong
    rw [encode_sentence]
    simp only [List.length_take, List.length_map]
    have hids : min L sentence.length = L := by omega
    rw [hids, Nat.sub_self, List.replicate_zero, List.append_nil,
      ← List.map_take]
  · intro hshort
    rw [encode_sentence]
    have htake : (sentence.map
        (fun c => (lookupChar vocab c).getD unkIndex)).take L =
        sentence.map (fun c => (lookupChar vocab c).getD unkIndex) :=
      List.take_of_length_le (by simpa using hshort)
    rw [htake]
    simp only [List.length_map]

/-- Witness for C6 at the spec's own scenario: encoding "cat" with
limit 5 under the vocabulary built from the corpus ["cat","dogs"]. -/
theorem claim_C6_witness :
    (0 : Nat) < 5 ∧
    ((encode_sentence (build_vocabulary [['c','a','t'], ['d','o','g','s']] none)
        5 ['c','a','t']).length = 5 ∧
    ((5 : Nat) ≤ ([ 'c','a','t'] : List Char).length →
      encode_sentence (build_vocabulary [['c','a','t'], ['d','o','g','s']] none)
        5 ['c','a','t'] =
        (([ 'c','a','t'] : List Char).take 5).map
          (fun c => (lookupChar
            (build_vocabulary [['c','a','t'], ['d','o','g','s']] none) c).getD
            unkIndex)) ∧
    (([ 'c','a','t'] : List Char).length ≤ 5 →
      encode_sentence (build_vocabulary [['c','a','t'], ['d','o','g','s']] none)
        5 ['c','a','t'] =
        ([ 'c','a','t'] : List Char).map
          (fun c => (lookupChar
            (build_vocabulary [['c','a','t'], ['d','o','g','s']] none) c).getD
            unkIndex) ++
          List.replicate (5 - ([ 'c','a','t'] : List Char).length) padIndex)) :=
  ⟨by decide,
    claim_C6_encoder_length_invariant
      (build_vocabulary [['c','a','t'], ['d','o','g','s']] none) 5 (by decide)
      ['c','a','t']⟩

/-- C7: for every corpus and every cap N at most the number of
distinct characters in the corpus, the built vocabulary has size N
plus the number of reserved symbols; its characters are the reserved
symbols (at the first indices) followed by the first N characters of
the stable descending-frequency ordering of the distinct characters
(so it contains the N highest-frequency characters: every retained
character's frequency is at least every discarded character's), and
the indices are assigned consecutively from 0 in that order
(descending frequency with first-seen tie-break, by stability of
insertion sort). -/
theorem claim_C7_vocabulary_capping (corpus : List (List Char)) (N : Nat)
    (hN : N ≤ (firstSeen corpus.flatten).length) :
    (build_vocabulary corpus (some N)).length = N + reservedSymbols.length ∧
    (build_vocabulary corpus (some N)).map Prod.fst =
      reservedSymbols ++
        ((firstSeen corpus.flatten).insertionSort (freqGE corpus)).take N ∧
    List.Sorted (freqGE corpus)
      ((firstSeen corpus.flatten).insertionSort (freqGE corpus)) ∧
    (∀ c ∈ ((firstSeen corpus.flatten).insertionSort (freqGE corpus)).take N,
      ∀ d ∈ ((firstSeen corpus.flatten).insertionSort (freqGE corpus)).drop N,
        charFrequency corpus d ≤ charFrequency corpus c) ∧
    (build_vocabulary corpus (some N)).map Prod.snd =
      List.range' 0 (reservedSymbols.length + N) := by
  have hsortlen :
      ((firstSeen corpus.flatten).insertionSort (freqGE corpus)).length =
        (firstSeen corpus.flatten).length :=
    (List.perm_insertionSort (freqGE corpus) (firstSeen corpus.flatten)).length_eq
  have hsorted : List.Sorted (freqGE corpus)
      ((firstSeen corpus.flatten).insertionSort (freqGE corpus)) :=
    List.sorted_insertionSort (freqGE corpus) (firstSeen corpus.flatten)
  refine ⟨?_, ?_, hsorted, ?_, ?_⟩
  · rw [build_vocabulary]
    rw [assignIndices_length, List.length_append, List.length_take]
    rw [hsortlen]
    simp only [reservedSymbols, List.length_cons, List.length_nil]
    omega
  · rw [build_vocabulary]
    exact assignIndices_map_fst _ 0
  · intro c hc d hd
    have hp : List.Pairwise (freqGE corpus)
        (((firstSeen corpus.flatten).insertionSort (freqGE corpus)).take N ++
          ((firstSeen corpus.flatten).insertionSort (freqGE corpus)).drop N) := by
      rw [List.take_append_drop]
      exact hsorted
    exact (List.pairwise_append.mp hp).2.2 c hc d hd
  · rw [build_vocabulary]
    rw [assignIndices_map_snd, List.length_append, List.length_take, hsortlen]
    have : min N (firstSeen corpus.flatten).length = N := by omega
    rw [this]

/-- Witness for C7: corpus ["aba"], cap N = 1 — the distinct
characters are {a, b}, 'a' is more frequent, and the built vocabulary
is [pad ↦ 0, unk ↦ 1, 'a' ↦ 2]. -/
theorem claim_C7_witness :
    (1 : Nat) ≤ (firstSeen ([['a','b','a']] : List (List Char)).flatten).length ∧
    ((build_vocabulary [['a','b','a']] (some 1)).length =
        1 + reservedSymbols.length ∧
    (build_vocabulary [['a','b','a']] (some 1)).map Prod.fst =
      reservedSymbols ++
        ((firstSeen ([['a','b','a']] : List (List Char)).flatten).insertionSort
          (freqGE [['a','b','a']])).take 1 ∧
    List.Sorted (freqGE [['a','b','a']])
      ((firstSeen ([['a','b','a']] : List (List Char)).flatten).insertionSort
        (freqGE [['a','b','a']])) ∧
    (∀ c ∈ ((firstSeen ([['a','b','a']] : List (List Char)).flatten).insertionSort
        (freqGE [['a','b','a']])).take 1,
      ∀ d ∈ ((firstSeen ([['a','b','a']] : List (List Char)).flatten).insertionSort
        (freqGE [['a','b','a']])).drop 1,
        charFrequency [['a','b','a']] d ≤ charFrequency [['a','b','a']] c) ∧
    (build_vocabulary [['a','b','a']] (some 1)).map Prod.snd =
      List.range' 0 (reservedSymbols.length + 1)) :=
  ⟨by decide, claim_C7_vocabulary_capping [['a','b','a']] 1 (by decide)⟩

/-- C9: encoding is total — `encode_sentence` is a total function
returning a plain list (there is no error outcome in its type): every
character absent from the vocabulary maps to the reserved unknown
index at its position, and over-length sentences are truncated (the
encoding equals that of the first L characters) rather than causing an
error. -/
theorem claim_C9_encoding_total (vocab : CharToIndexType) (L : Nat)
    (sentence : List Char) (c : Char) (hc : lookupChar vocab c = none) :
    (∀ i, i < L → sentence[i]? = some c →
      (encode_sentence vocab L sentence)[i]? = some unkIndex) ∧
    encode_sentence vocab L sentence = encode_sentence vocab L (sentence.take L) := by
  constructor
  · intro i hiL hi
    have his : i < sentence.length := by
      by_contra hge
      push_neg at hge
      rw [List.getElem?_eq_none hge] at hi
      exact Option.noConfusion hi
    rw [encode_sentence]
    rw [List.getElem?_append_left]
    · rw [List.getElem?_take_of_lt hiL, List.getElem?_map, hi]
      simp [hc]
    · simp only [List.length_take, List.length_map]
      omega
  · rw [encode_sentence, encode_sentence]
    rw [List.map_take, List.take_take, Nat.min_self]

/-- Witness for C9: the character 'z' is absent from the vocabulary
built from ["cat","dogs"]; encoding "zat" with limit 2 maps position 0
to the unknown index and truncates. -/
theorem claim_C9_witness :
    lookupChar (build_vocabulary [['c','a','t'], ['d','o','g','s']] none) 'z'
      = none ∧
    ((∀ i, i < 2 → (['z','a','t'] : List Char)[i]? = some 'z' →
      (encode_sentence (build_vocabulary [['c','a','t'], ['d','o','g','s']] none)
        2 ['z','a','t'])[i]? = some unkIndex) ∧
    encode_sentence (build_vocabulary [['c','a','t'], ['d','o','g','s']] none)
        2 ['z','a','t'] =
      encode_sentence (build_vocabulary [['c','a','t'], ['d','o','g','s']] none)
        2 ((['z','a','t'] : List Char).take 2)) := by
  refine ⟨by decide, ?_⟩
  exact claim_C9_encoding_total
    (build_vocabulary [['c','a','t'], ['d','o','g','s']] none) 2 ['z','a','t']
    'z' (by decide)

/-- C8: for a pair of input and target files present on disk, the
Dataset File Reader returns the two (equal-length) sentence sequences
exactly when the files contain equal numbers of lines, and raises
`MismatchedLengthError` whenever the two files contain different
numbers of lines. -/
theorem claim_C8_reader_alignment (fs : TextFs) (pin ptg : String)
    (ins tgts : List String)
    (hin : fs.lookup pin = some ins) (htg : fs.lookup ptg = some tgts) :
    (ins.length = tgts.length →
      read_dataset_files fs pin ptg none = .ok (ins, tgts)) ∧
    (ins.length ≠ tgts.length →
      read_dataset_files fs pin ptg none = .error .mismatchedLengthError) := by
  constructor
  · intro heq
    simp only [read_dataset_files, hin, htg]
    rw [if_neg]
    intro hne
    exact hne heq
  · intro hne
    simp only [read_dataset_files, hin, htg]
    rw [if_pos hne]

/-- Witness for C8: a one-line inputs file against a two-line targets
file raises `MismatchedLengthError`. -/
theorem claim_C8_witness :
    read_dataset_files [("a.in", ["x"]), ("a.tg", ["y", "z"])] "a.in" "a.tg"
      none = .error .mismatchedLengthError :=
  (claim_C8_reader_alignment [("a.in", ["x"]), ("a.tg", ["y", "z"])]
    "a.in" "a.tg" ["x"] ["y", "z"] rfl rfl).2 (by decide)

/-- C1 (code bug): at a descriptor declaring distinct dev and test
files, with the dev files holding different sentences than the test
files, `add_dev_and_test_sets` attaches a test split holding the DEV
files' sentences: the test branch of the source reads
`ds_fpaths['dev_inputs']`/`ds_fpaths['dev_targets']` instead of its
own declared `test_inputs`/`test_targets` keys. -/
theorem claim_C1_test_split_reads_dev_files :
    add_dev_and_test_sets
      [("d.in", ["dev-in"]), ("d.tg", ["dev-tg"]),
        ("t.in", ["test-in"]), ("t.tg", ["test-tg"])]
      ⟨none, none⟩
      [("train_inputs", "tr.in"), ("train_targets", "tr.tg"),
        ("dev_inputs", "d.in"), ("dev_targets", "d.tg"),
        ("test_inputs", "t.in"), ("test_targets", "t.tg")] =
      .ok ⟨some (["dev-in"], ["dev-tg"]), some (["dev-in"], ["dev-tg"])⟩ :=
  rfl

/-- C10: the validation (resp. test) branch of `add_dev_and_test_sets`
is guarded solely by the presence of the `dev_inputs` (resp.
`test_inputs`) key: whenever the call succeeds, the validation split
is attached iff `dev_inputs` is present and the test split is attached
iff `test_inputs` is present; and the targets key is never checked, so
a descriptor containing `dev_inputs` but lacking `dev_targets` makes
the unguarded dictionary lookup raise `KeyError` instead of a
descriptive ingestion error. -/
theorem claim_C10_split_attachment_guards (fs : TextFs) (ds : DsFpaths) :
    ((ds.lookup "dev_inputs").isSome → ds.lookup "dev_targets" = none →
      add_dev_and_test_sets fs ⟨none, none⟩ ds = .error .keyError) ∧
    (∀ d', add_dev_and_test_sets fs ⟨none, none⟩ ds = .ok d' →
      ((d'.validation.isSome ↔ (ds.lookup "dev_inputs").isSome) ∧
        (d'.test.isSome ↔ (ds.lookup "test_inputs").isSome))) := by
  constructor
  · intro hdev htg
    obtain ⟨x, hx⟩ := Option.isSome_iff_exists.mp hdev
    simp only [add_dev_and_test_sets, attachValidationStep, getItem, hx, htg,
      Option.isSome_some, if_true]
  · intro d' hd'
    rcases hdev : ds.lookup "dev_inputs" with _ | x
    · rcases htest : ds.lookup "test_inputs" with _ | t
      · simp only [add_dev_and_test_sets, attachValidationStep,
          attachTestStep, hdev, htest, Option.isSome_none,
          Bool.false_eq_true, if_false, Except.ok.injEq] at hd'
        subst hd'
        simp [hdev, htest]
      · simp only [add_dev_and_test_sets, attachValidationStep,
          attachTestStep, getItem, hdev, htest, Option.isSome_none,
          Option.isSome_some, Bool.false_eq_true, if_false, if_true] at hd'
        exact Except.noConfusion hd'
    · rcases htg : ds.lookup "dev_targets" with _ | y
      · simp only [add_dev_and_test_sets, attachValidationStep, getItem,
          hdev, htg, Option.isSome_some, if_true] at hd'
        exact Except.noConfusion hd'
      · rcases hread : read_dataset_files fs x y none with e | ab
        · simp only [add_dev_and_test_sets, attachValidationStep, getItem,
            hdev, htg, hread, Option.isSome_some, if_true] at hd'
          exact Except.noConfusion hd'
        · rcases htest : ds.lookup "test_inputs" with _ | t
          · simp only [add_dev_and_test_sets, attachValidationStep,
              attachTestStep, getItem, hdev, htg, hread, htest,
              Option.isSome_some, Option.isSome_none, Bool.false_eq_true,
              if_true, if_false, Except.ok.injEq] at hd'
            subst hd'
            simp [add_validation_set, hdev, htest]
          · simp only [add_dev_and_test_sets, attachValidationStep,
              attachTestStep, getItem, hdev, htg, hread, htest,
              Option.isSome_some, if_true, Except.ok.injEq] at hd'
            subst hd'
            simp [add_validation_set, add_test_set, hdev, htest]

/-- Witness for C10: a descriptor containing `dev_inputs` but lacking
`dev_targets` makes `add_dev_and_test_sets` raise `KeyError`. -/
theorem claim_C10_witness :
    add_dev_and_test_sets [] ⟨none, none⟩ [("dev_inputs", "d.in")] =
      .error .keyError :=
  (claim_C10_split_attachment_guards [] [("dev_inputs", "d.in")]).1
    (by decide) rfl

end DiacriticsRestoration
